import Mathlib

/-!
Shallow embedding of the realtime-translation core services:

* `app/services/parallel_translation.py` — sentence aggregation and
  parallel translation fan-out with a bounded context window;
* `app/services/room_manager.py` — rooms, per-language channels,
  listener membership and broadcast primitives;
* `app/services/audio_capture.py` — the bounded audio ingest queue;
* `app/services/transcription.py` — the STT bridge reconnect logic.

External provider calls (Groq, Deepgram, websockets) are modelled by
oracles: a function giving, for each unit of work, the outcome the
provider would return (success with a value, or failure).  Python
`dict`s are modelled by insertion-ordered association lists, Python
`set`s by `Finset`, `deque(maxlen=3)` by a list truncated from the
left, and `asyncio.Queue` by a list whose head is the front.
-/

/-- Python `str.strip()`: remove leading and trailing whitespace.
Defined structurally over the character list (rather than through
`String.trim`, which is extensionally the same function) so that it
evaluates by kernel reduction on concrete inputs. -/
def pyStrip (s : String) : String :=
  ⟨((s.data.dropWhile Char.isWhitespace).reverse.dropWhile Char.isWhitespace).reverse⟩

example : pyStrip "  Hello world.  " = "Hello world." := by decide

example : pyStrip "   " = "" := by decide

/-- A Python `dict` assignment `d[k] = v`: updates the value in place if
the key is present, otherwise appends the new binding at the end
(insertion order). -/
def dictInsert {α : Type} (d : List (String × α)) (k : String) (v : α) :
    List (String × α) :=
  match d with
  | [] => [(k, v)]
  | (k0, v0) :: rest =>
    if k0 = k then (k0, v) :: rest else (k0, v0) :: dictInsert rest k v

/-- A Python `d.get(k)` / `d[k]` lookup on the association-list model. -/
def dictGet {α : Type} (d : List (String × α)) (k : String) : Option α :=
  match d with
  | [] => none
  | (k0, v0) :: rest => if k0 = k then some v0 else dictGet rest k

/-- The keys of the association-list model of a `dict`, in order. -/
def dictKeys {α : Type} (d : List (String × α)) : List String :=
  d.map Prod.fst

/-- `deque(maxlen=3)` capacity from `ParallelTranslationService.__init__`. -/
def CONTEXT_MAXLEN : Nat := 3

/-- Appending to `self.context_buffer` (a `deque(maxlen=3)`): the result
keeps only the last `CONTEXT_MAXLEN` elements, evicting from the left. -/
def pushContext (ctx : List (String × String)) (p : String × String) :
    List (String × String) :=
  let l := ctx ++ [p]
  l.drop (l.length - CONTEXT_MAXLEN)

/-- Python truthiness of an `Optional[str]`: `None` and `""` are falsy. -/
def truthy : Option String → Bool
  | none => false
  | some s => s != ""

/-- `ParallelTranslationService.translate_single`.  `hasClient` models
`self.client` being configured; `provider text lang` models the Groq
chat-completion call for this source text and target language (`some`
the stripped translated text, `none` a raised provider error, which the
`except` branch turns into `None`). -/
def translate_single (hasClient : Bool) (provider : String → String → Option String)
    (text : String) (target_lang : String) : Option String :=
  if hasClient = false ∨ pyStrip text = "" then none
  else provider text target_lang

/-- The loop `for lang, translated in translations.items(): if translated:
... break`: the first binding whose value is truthy, if any. -/
def firstTruthy (l : List (String × Option String)) : Option (String × String) :=
  match l with
  | [] => none
  | (lang, r) :: rest =>
    match r with
    | some t => if t = "" then firstTruthy rest else some (lang, t)
    | none => firstTruthy rest

/-- `ParallelTranslationService.translate_parallel`.  Returns the
`translations` dict (language → text-or-`None`) and the updated context
buffer.  `asyncio.gather(*tasks)` returns results in task (request)
order, which `zip(target_languages, results)` relies on; each
`translate_single` already catches provider errors, so a failed language
contributes a `none` binding. -/
def translate_parallel (hasClient : Bool) (provider : String → String → Option String)
    (text : String) (target_languages : List String)
    (ctx : List (String × String)) :
    List (String × Option String) × List (String × String) :=
  if hasClient = false ∨ pyStrip text = "" ∨ target_languages = [] then ([], ctx)
  else
    let results := target_languages.map (translate_single hasClient provider text)
    let translations := (target_languages.zip results).foldl
      (fun d lr => dictInsert d lr.1 lr.2) []
    let ctx2 := match firstTruthy translations with
      | some lt => pushContext ctx (text, lt.2)
      | none => ctx
    (translations, ctx2)

/-- The tuple `sentence_endings` from `process_transcript`; every element
is a single character, so `str.endswith(sentence_endings)` is a test on
the last character. -/
def sentence_endings : List Char := ['.', '!', '?', '。', '！', '？', '،', '؟']

/-- `self.transcript_buffer.endswith(sentence_endings)`. -/
def endsWithSentenceEnding (s : String) : Bool :=
  match s.data.getLast? with
  | some c => sentence_endings.contains c
  | none => false

/-- The mutable state of `ParallelTranslationService` that
`process_transcript` reads and writes. -/
structure AggregatorState where
  transcript_buffer : String
  context_buffer : List (String × String)
  deriving DecidableEq, Repr

/-- `ParallelTranslationService.process_transcript`: appends a final,
non-blank fragment to the buffer (joined by one space, whole buffer
stripped) and flushes through `translate_parallel` when the buffer ends
with a sentence-terminal mark or is longer than 200 characters. -/
def process_transcript (hasClient : Bool) (provider : String → String → Option String)
    (text : String) (is_final : Bool) (target_languages : List String)
    (st : AggregatorState) :
    List (String × Option String) × AggregatorState :=
  if is_final = false ∨ pyStrip text = "" then ([], st)
  else
    let buf := pyStrip (st.transcript_buffer ++ " " ++ pyStrip text)
    if endsWithSentenceEnding buf = true ∨ buf.length > 200 then
      let r := translate_parallel hasClient provider buf target_languages st.context_buffer
      (r.1, { transcript_buffer := "", context_buffer := r.2 })
    else
      ([], { st with transcript_buffer := buf })

example :
    process_transcript true (fun _ _ => none) "Hello" true ["es"]
      ⟨"", []⟩ = ([], ⟨"Hello", []⟩) := by decide

example :
    process_transcript true (fun t _ => some ("T:" ++ t)) "world." true ["es"]
      ⟨"Hello", []⟩ =
      ([("es", some "T:Hello world.")], ⟨"", [("Hello world.", "T:Hello world.")]⟩) := by
  decide

/-!
Embedding of `app/services/room_manager.py`.  A websocket listener
handle is modelled by a natural number; a per-broadcast oracle
`sendOk : WS → Bool` tells whether `ws.send_bytes` / `ws.send_text`
succeeds or raises for each listener.
-/

/-- A listener websocket handle (`fastapi.WebSocket`). -/
abbrev WS := Nat

/-- `TranslationChannel`: one translation channel for one target
language. -/
structure TranslationChannel where
  target_language : String
  voice : String
  listeners : Finset WS
  is_active : Bool
  deriving DecidableEq

/-- `TranslationChannel.broadcast_audio`: attempt `send_bytes` to every
current listener, then drop from membership every listener whose send
raised.  Returns the set of listeners delivery was attempted to and the
updated channel.  The audio payload does not influence membership. -/
def TranslationChannel.broadcast_audio (ch : TranslationChannel)
    (sendOk : WS → Bool) (_audio_data : List Nat) :
    Finset WS × TranslationChannel :=
  (ch.listeners, { ch with listeners := ch.listeners.filter (fun w => sendOk w = true) })

/-- `TranslationChannel.broadcast_text`: same membership behaviour as
`broadcast_audio`, with a JSON text payload. -/
def TranslationChannel.broadcast_text (ch : TranslationChannel)
    (sendOk : WS → Bool) (_message : String) :
    Finset WS × TranslationChannel :=
  (ch.listeners, { ch with listeners := ch.listeners.filter (fun w => sendOk w = true) })

/-- `TranslationRoom`: one translation room/event.  The translation and
TTS callback fields are external collaborators and carry no state the
claims depend on, so they are not represented. -/
structure TranslationRoom where
  room_id : String
  room_name : String
  host_id : String
  source_language : String
  channels : List (String × TranslationChannel)
  created_at : Nat
  is_active : Bool
  max_listeners_per_channel : Nat
  deriving DecidableEq

/-- `TranslationRoom.get_or_create_channel`: return the existing channel
for the language, or lazily create one with the given voice.  Returns
the channel together with the room (whose `channels` dict the Python
method mutates in place). -/
def TranslationRoom.get_or_create_channel (room : TranslationRoom)
    (language : String) (voice : String) :
    TranslationChannel × TranslationRoom :=
  match dictGet room.channels language with
  | some ch => (ch, room)
  | none =>
    let ch : TranslationChannel :=
      { target_language := language, voice := voice, listeners := ∅, is_active := true }
    (ch, { room with channels := dictInsert room.channels language ch })

/-- Python `str.upper()`, used by the registry to normalise room ids. -/
def pyUpper (s : String) : String :=
  ⟨s.data.map Char.toUpper⟩

/-- `RoomManager`: the registry of rooms and the host→room map. -/
structure RoomManager where
  rooms : List (String × TranslationRoom)
  host_to_room : List (String × String)
  deriving DecidableEq

/-- Python `del d[k]` / conditional delete on the association-list model
of a `dict`. -/
def dictErase {α : Type} (d : List (String × α)) (k : String) :
    List (String × α) :=
  match d with
  | [] => []
  | (k0, v0) :: rest => if k0 = k then rest else (k0, v0) :: dictErase rest k

/-- `RoomManager.get_room`: case-insensitive lookup via `.upper()`. -/
def RoomManager.get_room (m : RoomManager) (room_id : String) :
    Option TranslationRoom :=
  dictGet m.rooms (pyUpper room_id)

/-- `RoomManager.close_room`: `False` if the room is absent; otherwise
flip the room's `is_active` flag, delete the host mapping and the room
entry.  Returns the boolean result, the updated registry, and the
closed room object as it remains visible to holders of a reference
(its flag now `false`). -/
def RoomManager.close_room (m : RoomManager) (room_id : String) :
    Bool × RoomManager × Option TranslationRoom :=
  match dictGet m.rooms (pyUpper room_id) with
  | none => (false, m, none)
  | some room =>
    let room2 := { room with is_active := false }
    (true,
     { rooms := dictErase m.rooms (pyUpper room_id),
       host_to_room := dictErase m.host_to_room room.host_id },
     some room2)

/-- `RoomManager.add_listener`: reject when the room is absent or
inactive; lazily create the channel; reject without adding when the
channel is at `max_listeners_per_channel`; otherwise add the websocket
to the channel's listener set.  Returns the boolean result and the
updated registry (channel creation persists even on a capacity
reject, as the Python method mutates the shared room object). -/
def RoomManager.add_listener (m : RoomManager) (room_id : String)
    (language : String) (websocket : WS) (voice : String) :
    Bool × RoomManager :=
  match dictGet m.rooms (pyUpper room_id) with
  | none => (false, m)
  | some room =>
    if room.is_active = false then (false, m)
    else
      let cr := room.get_or_create_channel language voice
      if room.max_listeners_per_channel ≤ cr.1.listeners.card then
        (false, { m with rooms := dictInsert m.rooms (pyUpper room_id) cr.2 })
      else
        let channel2 := { cr.1 with listeners := insert websocket cr.1.listeners }
        let room3 := { cr.2 with channels := dictInsert cr.2.channels language channel2 }
        (true, { m with rooms := dictInsert m.rooms (pyUpper room_id) room3 })

/-- `RoomManager.broadcast_translation_to_channel`: no-op when the room
or the channel is absent; otherwise a `broadcast_text` on that channel.
Returns the set of listeners delivery was attempted to and the updated
registry. -/
def RoomManager.broadcast_translation_to_channel (m : RoomManager)
    (sendOk : WS → Bool) (room_id : String) (language : String)
    (translated_text : String) : Finset WS × RoomManager :=
  match dictGet m.rooms (pyUpper room_id) with
  | none => (∅, m)
  | some room =>
    match dictGet room.channels language with
    | none => (∅, m)
    | some ch =>
      let r := ch.broadcast_text sendOk translated_text
      let room2 := { room with channels := dictInsert room.channels language r.2 }
      (r.1, { m with rooms := dictInsert m.rooms (pyUpper room_id) room2 })

/-- `RoomManager.broadcast_audio_to_channel`: no-op when the room or the
channel is absent; otherwise a `broadcast_audio` on that channel. -/
def RoomManager.broadcast_audio_to_channel (m : RoomManager)
    (sendOk : WS → Bool) (room_id : String) (language : String)
    (audio_data : List Nat) : Finset WS × RoomManager :=
  match dictGet m.rooms (pyUpper room_id) with
  | none => (∅, m)
  | some room =>
    match dictGet room.channels language with
    | none => (∅, m)
    | some ch =>
      let r := ch.broadcast_audio sendOk audio_data
      let room2 := { room with channels := dictInsert room.channels language r.2 }
      (r.1, { m with rooms := dictInsert m.rooms (pyUpper room_id) room2 })

/-!
Embedding of `app/services/audio_capture.py` (the ingest queue) and
`app/services/transcription.py` (the STT bridge).  Audio frames are
opaque values modelled by naturals.  The `asyncio.Queue` is a list whose
head is the front (oldest element).
-/

/-- `AudioCaptureService.__init__`: `asyncio.Queue(maxsize=300)`. -/
def INGEST_QUEUE_MAXSIZE : Nat := 300

/-- `AudioCaptureService._enqueue_audio`: when the queue is full, drop
the oldest item (`get_nowait`) to make room, then append the new frame
(`put_nowait`). -/
def enqueue_audio (maxsize : Nat) (q : List Nat) (data : Nat) : List Nat :=
  if maxsize ≤ q.length then q.drop 1 ++ [data] else q ++ [data]

/-- `AudioCaptureService.get_audio_chunk`: `await self.queue.get()` —
the front (oldest) element together with the remaining queue, or `none`
when the consumer would block on an empty queue. -/
def get_audio_chunk (q : List Nat) : Option (Nat × List Nat) :=
  match q with
  | [] => none
  | d :: rest => some (d, rest)

/-- The state of `TranscriptionService` that `start` / `send_audio`
read and write: the connected flag, whether `self.dg_connection` holds a
connection object, and `self.last_source_lang` (absent until the first
`start`). -/
structure TranscriptionBridge where
  is_connected : Bool
  has_connection : Bool
  last_source_lang : Option String
  deriving DecidableEq

/-- `TranscriptionService.start`: records the source language for later
reconnects, then (unless already connected) creates a connection object
and attempts to open it; `connectOk` models whether the provider
handshake succeeds (`dg_connection.start(options)` and the surrounding
`try` both leave `is_connected` false on failure). -/
def TranscriptionBridge.start (st : TranscriptionBridge) (source_lang : String)
    (connectOk : Bool) : TranscriptionBridge :=
  let st1 := { st with last_source_lang := some source_lang }
  if st1.is_connected = true then st1
  else { st1 with has_connection := true, is_connected := connectOk }

/-- The observable effects of one `send_audio` call: how many reconnects
were attempted and with which language, how many provider sends were
attempted, and whether the frame was delivered. -/
structure SendOutcome where
  reconnect_attempts : Nat
  reconnect_lang : Option String
  send_attempts : Nat
  delivered : Bool
  deriving DecidableEq

/-- `TranscriptionService.send_audio`: if disconnected and a truthy
`last_source_lang` is known, attempt one reconnect with it and give up
on the frame if still disconnected; then, when connected with a
connection object, attempt the provider send (`connectOk` / `sendOk`
model the two provider outcomes); a failed send only flips
`is_connected` off.  The frame `_audio_data` is never stored. -/
def TranscriptionBridge.send_audio (st : TranscriptionBridge) (_audio_data : Nat)
    (connectOk : Bool) (sendOk : Bool) : TranscriptionBridge × SendOutcome :=
  let pre :=
    if st.is_connected = false then
      match st.last_source_lang with
      | some lang =>
        if lang = "" then (st, 0, (none : Option String))
        else (st.start lang connectOk, 1, some lang)
      | none => (st, 0, none)
    else (st, 0, none)
  let st2 := pre.1
  if st2.is_connected = false then
    (st2, ⟨pre.2.1, pre.2.2, 0, false⟩)
  else if st2.has_connection = true then
    if sendOk = true then (st2, ⟨pre.2.1, pre.2.2, 1, true⟩)
    else ({ st2 with is_connected := false }, ⟨pre.2.1, pre.2.2, 1, false⟩)
  else (st2, ⟨pre.2.1, pre.2.2, 0, false⟩)

/-!
Basic lemmas about the `dict` model.
-/

theorem dictGet_dictInsert_self {α : Type} (d : List (String × α)) (k : String) (v : α) :
    dictGet (dictInsert d k v) k = some v := by
  induction d with
  | nil => simp [dictInsert, dictGet]
  | cons p rest ih =>
    obtain ⟨k0, v0⟩ := p
    by_cases h : k0 = k <;> simp [dictInsert, dictGet, h, ih]

theorem dictInsert_eq_of_get {α : Type} (d : List (String × α)) (k : String) (v : α)
    (h : dictGet d k = some v) : dictInsert d k v = d := by
  induction d with
  | nil => simp [dictGet] at h
  | cons p rest ih =>
    obtain ⟨k0, v0⟩ := p
    by_cases hk : k0 = k
    · simp [dictGet, hk] at h
      simp [dictInsert, hk, h]
    · simp [dictGet, hk] at h
      simp [dictInsert, hk, ih h]

theorem dictGet_eq_none_iff {α : Type} (d : List (String × α)) (k : String) :
    dictGet d k = none ↔ k ∉ dictKeys d := by
  induction d with
  | nil => simp [dictGet, dictKeys]
  | cons p rest ih =>
    obtain ⟨k0, v0⟩ := p
    by_cases hk : k0 = k
    · subst hk
      simp [dictGet, dictKeys]
    · simp [dictGet, dictKeys, hk, ih, Ne.symm hk]

theorem dictInsert_absent {α : Type} (d : List (String × α)) (k : String) (v : α)
    (h : dictGet d k = none) : dictInsert d k v = d ++ [(k, v)] := by
  induction d with
  | nil => simp [dictInsert]
  | cons p rest ih =>
    obtain ⟨k0, v0⟩ := p
    by_cases hk : k0 = k
    · simp [dictGet, hk] at h
    · simp [dictGet, hk] at h
      simp [dictInsert, hk, ih h]

theorem dictKeys_append {α : Type} (d1 d2 : List (String × α)) :
    dictKeys (d1 ++ d2) = dictKeys d1 ++ dictKeys d2 := by
  simp [dictKeys]

theorem dictGet_dictErase_self {α : Type} (d : List (String × α)) (k : String) :
    (dictKeys d).Nodup → dictGet (dictErase d k) k = none := by
  induction d with
  | nil => intro _; simp [dictErase, dictGet]
  | cons p rest ih =>
    intro h
    obtain ⟨k0, v0⟩ := p
    rw [dictKeys, List.map_cons, List.nodup_cons] at h
    by_cases hk : k0 = k
    · subst hk
      simp only [dictErase, if_pos rfl]
      exact (dictGet_eq_none_iff rest k0).2 (by simpa [dictKeys] using h.1)
    · simp [dictErase, hk, dictGet, ih h.2]

theorem foldl_dictInsert_fresh {α : Type} (pairs : List (String × α)) :
    ∀ d : List (String × α), (∀ p ∈ pairs, p.1 ∉ dictKeys d) →
    (pairs.map Prod.fst).Nodup →
    pairs.foldl (fun acc lr => dictInsert acc lr.1 lr.2) d = d ++ pairs := by
  induction pairs with
  | nil => intro d _ _; simp
  | cons p rest ih =>
    intro d hfresh hnd
    simp only [List.foldl_cons]
    have h1 : dictInsert d p.1 p.2 = d ++ [p] := by
      have : dictGet d p.1 = none :=
        (dictGet_eq_none_iff d p.1).2 (hfresh p (by simp))
      simpa using dictInsert_absent d p.1 p.2 this
    rw [h1, ih (d ++ [p]) ?_ ?_]
    · simp
    · intro q hq
      rw [dictKeys_append]
      simp only [List.mem_append]
      rintro (hq1 | hq1)
      · exact hfresh q (by simp [hq]) hq1
      · have hmem : q.1 ∈ List.map Prod.fst rest := List.mem_map_of_mem Prod.fst hq
        rw [List.map_cons, List.nodup_cons] at hnd
        simp [dictKeys] at hq1
        rw [hq1] at hmem
        exact hnd.1 hmem
    · rw [List.map_cons, List.nodup_cons] at hnd
      exact hnd.2

theorem map_fst_map_pair {α : Type} (f : String → α) (l : List String) :
    List.map Prod.fst (l.map (fun x => (x, f x))) = l := by
  induction l with
  | nil => rfl
  | cons a t ih => simp [ih]

theorem zip_self_map {α : Type} (l : List String) (g : String → α) :
    l.zip (l.map g) = l.map (fun x => (x, g x)) := by
  induction l with
  | nil => simp
  | cons a t ih => simp [ih]

theorem dictGet_map_self {α : Type} (f : String → α) (langs : List String)
    (lang : String) (h : lang ∈ langs) :
    dictGet (langs.map (fun l => (l, f l))) lang = some (f lang) := by
  induction langs with
  | nil => simp at h
  | cons a t ih =>
    by_cases ha : a = lang
    · simp [dictGet, ha]
    · have : lang ∈ t := by
        rcases List.mem_cons.1 h with h1 | h1
        · exact (ha h1.symm).elim
        · exact h1
      simp [dictGet, ha, ih this]

/-- On a client-configured round with a non-blank sentence and a
non-empty language list, the `translations` dict of `translate_parallel`
is the per-language outcome list in request order. -/
theorem translate_parallel_fst (provider : String → String → Option String)
    (text : String) (target_languages : List String) (ctx : List (String × String))
    (htext : pyStrip text ≠ "") (hne : target_languages ≠ [])
    (hnd : target_languages.Nodup) :
    (translate_parallel true provider text target_languages ctx).1
      = target_languages.map (fun l => (l, translate_single true provider text l)) := by
  simp only [translate_parallel]
  rw [if_neg (by simp [htext, hne])]
  simp only [zip_self_map]
  rw [foldl_dictInsert_fresh _ _ (by simp [dictKeys]) (by rw [map_fst_map_pair]; exact hnd)]
  simp

/-- Companion to `translate_parallel_fst` for the returned context. -/
theorem translate_parallel_snd (provider : String → String → Option String)
    (text : String) (target_languages : List String) (ctx : List (String × String))
    (htext : pyStrip text ≠ "") (hne : target_languages ≠ [])
    (hnd : target_languages.Nodup) :
    (translate_parallel true provider text target_languages ctx).2
      = (match firstTruthy (target_languages.map
            (fun l => (l, translate_single true provider text l))) with
         | some lt => pushContext ctx (text, lt.2)
         | none => ctx) := by
  simp only [translate_parallel]
  rw [if_neg (by simp [htext, hne])]
  simp only [zip_self_map]
  rw [foldl_dictInsert_fresh _ _ (by simp [dictKeys]) (by rw [map_fst_map_pair]; exact hnd)]
  simp

/-- C1: with a configured client, for every completed (non-blank)
sentence and every duplicate-free list of N requested target languages,
`translate_parallel` returns a dict with exactly N entries whose keys
are exactly the requested languages, each mapped to that language's own
text-or-absent outcome — in particular also when any M < N of the
individual requests fail (`provider` returning `none` for them). -/
theorem C1_fanout_one_entry_per_language
    (provider : String → String → Option String) (text : String)
    (target_languages : List String) (ctx : List (String × String))
    (htext : pyStrip text ≠ "") (hnd : target_languages.Nodup) :
    (translate_parallel true provider text target_languages ctx).1.length
        = target_languages.length ∧
    dictKeys (translate_parallel true provider text target_languages ctx).1
        = target_languages ∧
    ∀ lang ∈ target_languages,
      dictGet (translate_parallel true provider text target_languages ctx).1 lang
        = some (translate_single true provider text lang) := by
  by_cases hempty : target_languages = []
  · subst hempty
    simp [translate_parallel, dictKeys]
  · rw [translate_parallel_fst provider text target_languages ctx htext hempty hnd]
    refine ⟨by simp, ?_, ?_⟩
    · simpa [dictKeys] using map_fst_map_pair (translate_single true provider text)
        target_languages
    · intro lang hlang
      exact dictGet_map_self _ target_languages lang hlang

/-- C1 witness: a concrete round with three requested languages of which
one fails: three entries, keyed `es`, `fr`, `de`, with `fr` absent. -/
theorem C1_fanout_one_entry_per_language_witness :
    (translate_parallel true
        (fun _ l => if l = "fr" then none else some ("t" ++ l))
        "Hello." ["es", "fr", "de"] []).1.length = 3 ∧
    dictKeys (translate_parallel true
        (fun _ l => if l = "fr" then none else some ("t" ++ l))
        "Hello." ["es", "fr", "de"] []).1 = ["es", "fr", "de"] := by
  have h := C1_fanout_one_entry_per_language
    (fun _ l => if l = "fr" then none else some ("t" ++ l))
    "Hello." ["es", "fr", "de"] [] (by decide) (by decide)
  exact ⟨h.1, h.2.1⟩

/-- Modelled from the spec for comparison in C2: "exactly one successful
(source, translated) pair — the first encountered in completion order —
is appended".  `completion_order` lists the target languages in the
order their concurrent requests complete; the first language in that
order whose collected result is truthy gives the pair the spec says is
appended. -/
def firstSuccessfulByCompletionOrder (results : List (String × Option String))
    (completion_order : List String) : Option (String × String) :=
  match completion_order with
  | [] => none
  | lang :: rest =>
    match dictGet results lang with
    | some (some t) =>
      if t = "" then firstSuccessfulByCompletionOrder results rest else some (lang, t)
    | _ => firstSuccessfulByCompletionOrder results rest

/-- C2 counterexample: a round over languages `["es", "fr"]` (request
order) where both succeed but the `fr` request completes first.  The
code appends the pair built from `es` — the first success in request
order, because `asyncio.gather` collects results in request order — not
the pair built from `fr`, the first success in completion order, so the
claim as stated fails for this completion schedule. -/
theorem C2_counterexample_completion_order :
    (translate_parallel true (fun _ l => some ("t" ++ l)) "Hi." ["es", "fr"] []).2
      = [("Hi.", "tes")] ∧
    firstSuccessfulByCompletionOrder
      (translate_parallel true (fun _ l => some ("t" ++ l)) "Hi." ["es", "fr"] []).1
      ["fr", "es"] = some ("fr", "tfr") ∧
    [(("Hi." : String), ("tes" : String))] ≠ [("Hi.", "tfr")] := by
  decide

/-- The `deque(maxlen=3)` append keeps `min (n+1) 3` entries. -/
theorem pushContext_length (ctx : List (String × String)) (p : String × String) :
    (pushContext ctx p).length = min (ctx.length + 1) CONTEXT_MAXLEN := by
  simp only [pushContext, List.length_drop, List.length_append, List.length_cons,
    List.length_nil, CONTEXT_MAXLEN]
  omega

/-- The `deque(maxlen=3)` append always retains the newly appended pair
as the most recent entry. -/
theorem pushContext_getLast (ctx : List (String × String)) (p : String × String) :
    (pushContext ctx p).getLast? = some p := by
  simp only [pushContext]
  rw [List.drop_append_of_le_length
    (by simp only [List.length_append, List.length_cons, List.length_nil, CONTEXT_MAXLEN]; omega)]
  exact List.getLast?_concat _

/-- C2 (amended): after every fan-out round in which at least one
language yields a truthy result, exactly one `(source, translated)` pair
is appended to the shared context window — the pair built from the first
truthy result in REQUEST order (the order of the requested language
list, which is the order `asyncio.gather` collects results in); rounds
with no truthy result leave the window unchanged; in every case the
window grows by at most one entry, regardless of fan-out width. -/
theorem C2_context_append_request_order
    (provider : String → String → Option String) (text : String)
    (target_languages : List String) (ctx : List (String × String))
    (htext : pyStrip text ≠ "") (hnd : target_languages.Nodup) :
    (∀ lang t,
      firstTruthy (target_languages.map
          (fun l => (l, translate_single true provider text l))) = some (lang, t) →
      (translate_parallel true provider text target_languages ctx).2
          = pushContext ctx (text, t) ∧
      ((translate_parallel true provider text target_languages ctx).2).getLast?
          = some (text, t)) ∧
    (firstTruthy (target_languages.map
        (fun l => (l, translate_single true provider text l))) = none →
      (translate_parallel true provider text target_languages ctx).2 = ctx) ∧
    (translate_parallel true provider text target_languages ctx).2.length
        ≤ ctx.length + 1 := by
  by_cases hempty : target_languages = []
  · subst hempty
    refine ⟨?_, ?_, ?_⟩
    · intro lang t h
      simp [firstTruthy] at h
    · intro _
      simp [translate_parallel]
    · simp [translate_parallel]
  · rw [translate_parallel_snd provider text target_languages ctx htext hempty hnd]
    refine ⟨?_, ?_, ?_⟩
    · intro lang t h
      rw [h]
      exact ⟨rfl, pushContext_getLast ctx (text, t)⟩
    · intro h
      rw [h]
    · cases hfd : firstTruthy (target_languages.map
          (fun l => (l, translate_single true provider text l))) with
      | none => simp
      | some lt =>
        show (pushContext ctx (text, lt.2)).length ≤ ctx.length + 1
        rw [pushContext_length]
        exact min_le_left _ _

/-- C2 witness: concrete round, both languages succeed, the pair from
`es` (first in request order) is appended. -/
theorem C2_context_append_request_order_witness :
    (translate_parallel true (fun _ l => some ("t" ++ l)) "Hi." ["es", "fr"] []).2
      = [("Hi.", "tes")] := by
  have h := (C2_context_append_request_order (fun _ l => some ("t" ++ l)) "Hi."
      ["es", "fr"] [] (by decide) (by decide)).1 "es" "tes" (by decide)
  rw [h.1]
  decide

/-- C3: the sentence aggregator `process_transcript` ignores non-final
fragments and blank fragments; a final non-blank fragment is appended to
the buffer joined by a single separating space with whitespace trimmed;
the buffer is flushed — forwarded to `translate_parallel` as one
completed sentence and reset to empty — exactly when it ends with one of
the fixed sentence-terminal marks or its length exceeds 200 characters;
in particular feeding final `"Hello"` flushes nothing, and then feeding
final `"world."` flushes exactly `"Hello world."`. -/
theorem C3_sentence_aggregation
    (hasClient : Bool) (provider : String → String → Option String)
    (text : String) (is_final : Bool) (target_languages : List String)
    (st : AggregatorState) :
    (is_final = false →
      process_transcript hasClient provider text is_final target_languages st = ([], st)) ∧
    (pyStrip text = "" →
      process_transcript hasClient provider text is_final target_languages st = ([], st)) ∧
    (is_final = true → pyStrip text ≠ "" →
      ((endsWithSentenceEnding (pyStrip (st.transcript_buffer ++ " " ++ pyStrip text)) = true ∨
          (pyStrip (st.transcript_buffer ++ " " ++ pyStrip text)).length > 200) →
        process_transcript hasClient provider text is_final target_languages st =
          ((translate_parallel hasClient provider
              (pyStrip (st.transcript_buffer ++ " " ++ pyStrip text))
              target_languages st.context_buffer).1,
           ⟨"", (translate_parallel hasClient provider
              (pyStrip (st.transcript_buffer ++ " " ++ pyStrip text))
              target_languages st.context_buffer).2⟩)) ∧
      ((endsWithSentenceEnding (pyStrip (st.transcript_buffer ++ " " ++ pyStrip text)) = false ∧
          (pyStrip (st.transcript_buffer ++ " " ++ pyStrip text)).length ≤ 200) →
        process_transcript hasClient provider text is_final target_languages st =
          ([], ⟨pyStrip (st.transcript_buffer ++ " " ++ pyStrip text),
                st.context_buffer⟩))) ∧
    (process_transcript true (fun t _ => some t) "Hello" true ["es"] ⟨"", []⟩
        = ([], ⟨"Hello", []⟩) ∧
     process_transcript true (fun t _ => some t) "world." true ["es"] ⟨"Hello", []⟩
        = ([("es", some "Hello world.")], ⟨"", [("Hello world.", "Hello world.")]⟩)) := by
  refine ⟨?_, ?_, ?_, by decide, by decide⟩
  · intro h
    simp [process_transcript, h]
  · intro h
    simp [process_transcript, h]
  · intro h1 h2
    subst h1
    constructor
    · intro hcond
      simp only [process_transcript]
      rw [if_neg (by simp [h2])]
      rw [if_pos hcond]
    · intro hcond
      simp only [process_transcript]
      rw [if_neg (by simp [h2])]
      rw [if_neg (by rw [hcond.1]; simp; omega)]

/-- C3 witness: the four branches at concrete inputs — non-final
ignored, blank ignored, `"world."` flushing `"Hello world."`, and
`"Hello"` buffered without a flush. -/
theorem C3_sentence_aggregation_witness :
    process_transcript true (fun t _ => some t) "Hi" false ["es"] ⟨"", []⟩ = ([], ⟨"", []⟩) ∧
    process_transcript true (fun t _ => some t) "   " true ["es"] ⟨"", []⟩ = ([], ⟨"", []⟩) ∧
    process_transcript true (fun t _ => some t) "world." true ["es"] ⟨"Hello", []⟩
      = ([("es", some "Hello world.")], ⟨"", [("Hello world.", "Hello world.")]⟩) ∧
    process_transcript true (fun t _ => some t) "Hello" true ["es"] ⟨"", []⟩
      = ([], ⟨"Hello", []⟩) := by
  refine ⟨(C3_sentence_aggregation true (fun t _ => some t) "Hi" false ["es"] ⟨"", []⟩).1 rfl,
          (C3_sentence_aggregation true (fun t _ => some t) "   " true ["es"] ⟨"", []⟩).2.1
            (by decide), ?_, ?_⟩
  · have h := ((C3_sentence_aggregation true (fun t _ => some t) "world." true ["es"]
        ⟨"Hello", []⟩).2.2.1 rfl (by decide)).1 (by decide)
    rw [h]
    decide
  · have h := ((C3_sentence_aggregation true (fun t _ => some t) "Hello" true ["es"]
        ⟨"", []⟩).2.2.1 rfl (by decide)).2 (by decide)
    rw [h]
    decide

/-- The context buffer after one `translate_parallel` round is either
unchanged or a `deque(maxlen=3)` append of one pair. -/
theorem translate_parallel_snd_cases (hasClient : Bool)
    (provider : String → String → Option String) (text : String)
    (target_languages : List String) (ctx : List (String × String)) :
    (translate_parallel hasClient provider text target_languages ctx).2 = ctx ∨
    ∃ p, (translate_parallel hasClient provider text target_languages ctx).2
          = pushContext ctx p := by
  simp only [translate_parallel]
  split
  · exact Or.inl rfl
  · dsimp only
    split
    · rename_i lt heq
      exact Or.inr ⟨(text, lt.2), rfl⟩
    · exact Or.inl rfl

/-- One round keeps the context within `CONTEXT_MAXLEN`. -/
theorem translate_parallel_ctx_le (hasClient : Bool)
    (provider : String → String → Option String) (text : String)
    (target_languages : List String) (ctx : List (String × String))
    (h : ctx.length ≤ CONTEXT_MAXLEN) :
    (translate_parallel hasClient provider text target_languages ctx).2.length
      ≤ CONTEXT_MAXLEN := by
  rcases translate_parallel_snd_cases hasClient provider text target_languages ctx with
    heq | ⟨p, heq⟩
  · rw [heq]; exact h
  · rw [heq, pushContext_length]; exact min_le_right _ _

/-- A whole translation session: thread the shared context window
through a sequence of fan-out rounds, each with its own client flag,
provider outcomes, source text and requested languages. -/
def runRounds : List (Bool × (String → String → Option String) × String × List String) →
    List (String × String) → List (String × String)
  | [], ctx => ctx
  | r :: rest, ctx => runRounds rest (translate_parallel r.1 r.2.1 r.2.2.1 r.2.2.2 ctx).2

/-- C6: starting within capacity (in the program: empty), the shared
context window never exceeds its fixed capacity of `CONTEXT_MAXLEN = 3`
entries after any number of rounds with any numbers of requested target
languages, and at capacity the append evicts exactly the oldest entry
(FIFO). -/
theorem C6_context_window_capacity
    (rounds : List (Bool × (String → String → Option String) × String × List String))
    (ctx : List (String × String)) (hctx : ctx.length ≤ CONTEXT_MAXLEN) :
    CONTEXT_MAXLEN = 3 ∧
    (runRounds rounds ctx).length ≤ CONTEXT_MAXLEN ∧
    (∀ p, ctx.length = CONTEXT_MAXLEN → pushContext ctx p = ctx.tail ++ [p]) := by
  refine ⟨rfl, ?_, ?_⟩
  · induction rounds generalizing ctx with
    | nil => exact hctx
    | cons r rest ih =>
      exact ih (translate_parallel r.1 r.2.1 r.2.2.1 r.2.2.2 ctx).2
        (translate_parallel_ctx_le r.1 r.2.1 r.2.2.1 r.2.2.2 ctx hctx)
  · intro p hlen
    simp only [pushContext, List.length_append, List.length_cons, List.length_nil, hlen]
    rw [List.drop_append_of_le_length (by rw [hlen]; decide)]
    have h1 : CONTEXT_MAXLEN + (0 + 1) - CONTEXT_MAXLEN = 1 := by omega
    rw [h1, List.drop_one]

/-- C6 witness: four successful rounds from the empty window leave at
most three entries. -/
theorem C6_context_window_capacity_witness :
    (runRounds [(true, fun t _ => some t, "A.", ["es"]),
                (true, fun t _ => some t, "B.", ["es"]),
                (true, fun t _ => some t, "C.", ["es"]),
                (true, fun t _ => some t, "D.", ["es"])] []).length
      ≤ CONTEXT_MAXLEN :=
  (C6_context_window_capacity _ [] (by decide)).2.1

example :
    runRounds [(true, fun t _ => some t, "A.", ["es"]),
               (true, fun t _ => some t, "B.", ["es"]),
               (true, fun t _ => some t, "C.", ["es"]),
               (true, fun t _ => some t, "D.", ["es"])] []
      = [("B.", "B."), ("C.", "C."), ("D.", "D.")] := by decide

/-- C4: for every channel broadcast (`broadcast_text` or
`broadcast_audio`) and every listener whose send fails, delivery to that
listener is attempted but the listener is removed from the channel's
membership by the end of that broadcast (exactly the listeners with
failing sends are removed); the following broadcast (of either kind)
attempts delivery to all remaining listeners and never to the removed
one. -/
theorem C4_broadcast_removes_failed_listener
    (ch : TranslationChannel) (sendOk1 sendOk2 : WS → Bool)
    (msg1 msg2 : String) (audio : List Nat) (w : WS)
    (hmem : w ∈ ch.listeners) (hfail : sendOk1 w = false) :
    (w ∈ (ch.broadcast_text sendOk1 msg1).1 ∧
     w ∉ (ch.broadcast_text sendOk1 msg1).2.listeners ∧
     (ch.broadcast_text sendOk1 msg1).2.listeners
        = ch.listeners.filter (fun v => sendOk1 v = true) ∧
     ((ch.broadcast_text sendOk1 msg1).2.broadcast_audio sendOk2 audio).1
        = (ch.broadcast_text sendOk1 msg1).2.listeners ∧
     w ∉ ((ch.broadcast_text sendOk1 msg1).2.broadcast_audio sendOk2 audio).1) ∧
    (w ∈ (ch.broadcast_audio sendOk1 audio).1 ∧
     w ∉ (ch.broadcast_audio sendOk1 audio).2.listeners ∧
     (ch.broadcast_audio sendOk1 audio).2.listeners
        = ch.listeners.filter (fun v => sendOk1 v = true) ∧
     ((ch.broadcast_audio sendOk1 audio).2.broadcast_text sendOk2 msg2).1
        = (ch.broadcast_audio sendOk1 audio).2.listeners ∧
     w ∉ ((ch.broadcast_audio sendOk1 audio).2.broadcast_text sendOk2 msg2).1) := by
  simp only [TranslationChannel.broadcast_text, TranslationChannel.broadcast_audio]
  simp [Finset.mem_filter, hmem, hfail]

/-- C4 witness: listeners `{1, 2}`, listener `2`'s send fails during a
text broadcast, so `2` is no longer a member afterwards. -/
theorem C4_broadcast_removes_failed_listener_witness :
    (2 : WS) ∉ ((⟨"es", "alloy", {1, 2}, true⟩ : TranslationChannel).broadcast_text
        (fun w => decide (w = 1)) "m").2.listeners :=
  ((C4_broadcast_removes_failed_listener ⟨"es", "alloy", {1, 2}, true⟩
    (fun w => decide (w = 1)) (fun _ => true) "m" "m2" [] 2
    (by decide) (by decide)).1).2.1

/-!
Lemmas for the capacity claims on the registry.
-/

theorem mem_dictInsert {α : Type} {q : String × α} {d : List (String × α)}
    {k : String} {v : α} (h : q ∈ dictInsert d k v) : q = (k, v) ∨ q ∈ d := by
  induction d with
  | nil => simpa [dictInsert] using h
  | cons p rest ih =>
    obtain ⟨k0, v0⟩ := p
    by_cases hk : k0 = k
    · subst hk
      simp [dictInsert] at h
      rcases h with h | h
      · exact Or.inl (by simp [h])
      · exact Or.inr (List.mem_cons_of_mem _ h)
    · simp [dictInsert, hk] at h
      rcases h with h | h
      · exact Or.inr (by simp [h])
      · rcases ih h with h1 | h1
        · exact Or.inl h1
        · exact Or.inr (List.mem_cons_of_mem _ h1)

theorem dictGet_mem {α : Type} {d : List (String × α)} {k : String} {v : α}
    (h : dictGet d k = some v) : (k, v) ∈ d := by
  induction d with
  | nil => simp [dictGet] at h
  | cons p rest ih =>
    obtain ⟨k0, v0⟩ := p
    by_cases hk : k0 = k
    · subst hk
      simp [dictGet] at h
      subst h
      exact List.mem_cons_self _ _
    · simp [dictGet, hk] at h
      exact List.mem_cons_of_mem _ (ih h)

theorem get_or_create_channel_existing (room : TranslationRoom)
    (language voice : String) (ch : TranslationChannel)
    (h : dictGet room.channels language = some ch) :
    room.get_or_create_channel language voice = (ch, room) := by
  simp [TranslationRoom.get_or_create_channel, h]

theorem get_or_create_channel_new (room : TranslationRoom)
    (language voice : String) (h : dictGet room.channels language = none) :
    room.get_or_create_channel language voice =
      (⟨language, voice, ∅, true⟩,
       { room with channels :=
           dictInsert room.channels language ⟨language, voice, ∅, true⟩ }) := by
  simp [TranslationRoom.get_or_create_channel, h]

/-- The per-channel bound invariant over the whole registry: no channel
of any room has more listeners than its room's
`max_listeners_per_channel`. -/
def RoomManager.ChannelBoundsOK (m : RoomManager) : Prop :=
  ∀ kr ∈ m.rooms, ∀ kc ∈ kr.2.channels,
    kc.2.listeners.card ≤ kr.2.max_listeners_per_channel

theorem ChannelBoundsOK_insert {m : RoomManager} (key : String)
    (room : TranslationRoom) (hOK : m.ChannelBoundsOK)
    (hroom : ∀ kc ∈ room.channels,
      kc.2.listeners.card ≤ room.max_listeners_per_channel) :
    RoomManager.ChannelBoundsOK { m with rooms := dictInsert m.rooms key room } := by
  intro kr hkr
  rcases mem_dictInsert hkr with h | h
  · subst h
    exact hroom
  · exact hOK kr h

/-- C5: a join for a channel already holding exactly the room's
`max_listeners_per_channel` listeners is rejected — `add_listener`
returns `false` and the registry (hence the channel's listener set) is
unchanged; moreover `add_listener` preserves the registry-wide bound
invariant, so no channel's listener count ever exceeds its room's
bound. -/
theorem C5_channel_capacity_bound (m : RoomManager) (room_id language : String)
    (ws : WS) (voice : String) :
    (∀ room channel,
      dictGet m.rooms (pyUpper room_id) = some room →
      room.is_active = true →
      dictGet room.channels language = some channel →
      channel.listeners.card = room.max_listeners_per_channel →
      m.add_listener room_id language ws voice = (false, m)) ∧
    (m.ChannelBoundsOK →
      (m.add_listener room_id language ws voice).2.ChannelBoundsOK) := by
  constructor
  · intro room channel hroom hactive hch hcard
    simp only [RoomManager.add_listener, hroom]
    rw [if_neg (by simp [hactive])]
    rw [get_or_create_channel_existing room language voice channel hch]
    dsimp only
    rw [if_pos (by simp [hcard])]
    rw [dictInsert_eq_of_get m.rooms (pyUpper room_id) room hroom]
  · intro hOK
    simp only [RoomManager.add_listener]
    cases hroom : dictGet m.rooms (pyUpper room_id) with
    | none => exact hOK
    | some room =>
      dsimp only
      by_cases hact : room.is_active = false
      · rw [if_pos hact]
        exact hOK
      · rw [if_neg hact]
        have hRoomBound : ∀ kc ∈ room.channels,
            kc.2.listeners.card ≤ room.max_listeners_per_channel :=
          hOK (pyUpper room_id, room) (dictGet_mem hroom)
        cases hch : dictGet room.channels language with
        | some channel =>
          rw [get_or_create_channel_existing room language voice channel hch]
          dsimp only
          split
          · exact ChannelBoundsOK_insert _ _ hOK hRoomBound
          · rename_i hfull
            refine ChannelBoundsOK_insert _ _ hOK ?_
            intro kc hkc
            rcases mem_dictInsert hkc with h | h
            · subst h
              dsimp only
              have h1 := Finset.card_insert_le ws channel.listeners
              have h2 := hRoomBound (language, channel) (dictGet_mem hch)
              omega
            · exact hRoomBound kc h
        | none =>
          rw [get_or_create_channel_new room language voice hch]
          dsimp only
          split
          · refine ChannelBoundsOK_insert _ _ hOK ?_
            intro kc hkc
            rcases mem_dictInsert hkc with h | h
            · subst h
              simp
            · exact hRoomBound kc h
          · rename_i hfull
            refine ChannelBoundsOK_insert _ _ hOK ?_
            intro kc hkc
            rcases mem_dictInsert hkc with h | h
            · subst h
              dsimp only
              have h1 := Finset.card_insert_le ws (∅ : Finset WS)
              have h0 : (∅ : Finset WS).card = 0 := Finset.card_empty
              omega
            · rcases mem_dictInsert h with h2 | h2
              · subst h2
                simp
              · exact hRoomBound kc h2

/-- C5 witness: a room whose `es` channel bound is 1 and already has one
listener rejects a further join and is unchanged. -/
theorem C5_channel_capacity_bound_witness :
    RoomManager.add_listener
      ⟨[("R1", ⟨"R1", "Event", "h1", "auto",
          [("es", ⟨"es", "alloy", {7}, true⟩)], 0, true, 1⟩)], [("h1", "R1")]⟩
      "R1" "es" 8 "alloy"
      = (false,
         ⟨[("R1", ⟨"R1", "Event", "h1", "auto",
             [("es", ⟨"es", "alloy", {7}, true⟩)], 0, true, 1⟩)], [("h1", "R1")]⟩) :=
  (C5_channel_capacity_bound
      ⟨[("R1", ⟨"R1", "Event", "h1", "auto",
          [("es", ⟨"es", "alloy", {7}, true⟩)], 0, true, 1⟩)], [("h1", "R1")]⟩
      "R1" "es" 8 "alloy").1
    ⟨"R1", "Event", "h1", "auto", [("es", ⟨"es", "alloy", {7}, true⟩)], 0, true, 1⟩
    ⟨"es", "alloy", {7}, true⟩ (by decide) rfl (by decide) (by decide)

/-- C7 (amended): under producer overrun the ingest queue stays at its
fixed capacity (`INGEST_QUEUE_MAXSIZE = 300`); each overflow evicts the
oldest queued frame to admit the newest, so the newest frame is never
the one dropped; and the dequeue side serves the oldest RETAINED frame
next (the queue is FIFO over the most recent `INGEST_QUEUE_MAXSIZE`
frames), not the most recently produced frame. -/
theorem C7_ingest_queue_drop_oldest (q : List Nat) (d x : Nat) (rest : List Nat) :
    INGEST_QUEUE_MAXSIZE = 300 ∧
    (q.length = INGEST_QUEUE_MAXSIZE →
      (enqueue_audio INGEST_QUEUE_MAXSIZE q d).length = INGEST_QUEUE_MAXSIZE ∧
      enqueue_audio INGEST_QUEUE_MAXSIZE q d = q.drop 1 ++ [d]) ∧
    d ∈ enqueue_audio INGEST_QUEUE_MAXSIZE q d ∧
    (q = x :: rest → get_audio_chunk q = some (x, rest)) := by
  refine ⟨rfl, ?_, ?_, ?_⟩
  · intro h
    constructor
    · simp [enqueue_audio, h, INGEST_QUEUE_MAXSIZE]
    · simp [enqueue_audio, h]
  · simp only [enqueue_audio]
    split <;> simp
  · intro h
    subst h
    rfl

/-- C7 witness: a full queue stays at capacity on overflow, and the
dequeue returns the front element. -/
theorem C7_ingest_queue_drop_oldest_witness :
    (enqueue_audio INGEST_QUEUE_MAXSIZE (List.range 300) 300).length
        = INGEST_QUEUE_MAXSIZE ∧
    get_audio_chunk [5, 6] = some (5, [6]) :=
  ⟨((C7_ingest_queue_drop_oldest (List.range 300) 300 0 []).2.1
      (by simp [INGEST_QUEUE_MAXSIZE])).1,
   (C7_ingest_queue_drop_oldest [5, 6] 0 5 [6]).2.2.2 rfl⟩

/-- C7 counterexample to "always serves the most recently produced frame
next": 301 frames `0..300` are produced into the empty capacity-300
queue with no consumption; the one overflow evicts frame `0`, and the
next dequeue serves frame `1` — the oldest retained — while the most
recently produced frame is `300`. -/
theorem C7_counterexample_serves_oldest_retained :
    ((List.range 301).foldl (enqueue_audio INGEST_QUEUE_MAXSIZE) []).length
        = INGEST_QUEUE_MAXSIZE ∧
    (get_audio_chunk ((List.range 301).foldl (enqueue_audio INGEST_QUEUE_MAXSIZE) [])).map
        Prod.fst = some 1 ∧
    (List.range 301).getLast? = some 300 ∧
    (1 : Nat) ≠ 300 := by
  set_option maxRecDepth 100000 in decide

/-- C8: for every audio send while the bridge is marked disconnected
(and a truthy last source language is known from a previous `start`),
`send_audio` attempts exactly one reconnect, with that last known source
language, before retrying the send; if the reconnect fails, the frame is
dropped — no send is attempted, nothing is buffered (the resulting state
is independent of the frame) — and if it succeeds the send is retried
exactly once; a send failure while connected attempts no reconnect and
only marks the bridge disconnected for the next send. -/
theorem C8_bridge_reconnect_once (st : TranscriptionBridge) (lang : String)
    (data data2 : Nat) (connectOk sendOk : Bool) :
    (st.is_connected = false → st.last_source_lang = some lang → lang ≠ "" →
      ((st.send_audio data connectOk sendOk).2.reconnect_attempts = 1 ∧
       (st.send_audio data connectOk sendOk).2.reconnect_lang = some lang) ∧
      (connectOk = false →
        (st.send_audio data connectOk sendOk).2.send_attempts = 0 ∧
        (st.send_audio data connectOk sendOk).2.delivered = false ∧
        (st.send_audio data connectOk sendOk).1 = { st with has_connection := true } ∧
        (st.send_audio data connectOk sendOk).1
          = (st.send_audio data2 connectOk sendOk).1) ∧
      (connectOk = true →
        (st.send_audio data connectOk sendOk).2.send_attempts = 1)) ∧
    (st.is_connected = true → st.has_connection = true → sendOk = false →
      (st.send_audio data connectOk sendOk).1 = { st with is_connected := false } ∧
      (st.send_audio data connectOk sendOk).2.reconnect_attempts = 0 ∧
      (st.send_audio data connectOk sendOk).2.send_attempts = 1) := by
  rcases st with ⟨ic, hc, ls⟩
  constructor
  · intro hdisc hlang hne
    simp only at hdisc hlang
    subst hdisc
    subst hlang
    cases connectOk with
    | false =>
      refine ⟨⟨?_, ?_⟩, ?_, ?_⟩ <;>
        simp [TranscriptionBridge.send_audio, TranscriptionBridge.start, hne]
    | true =>
      cases sendOk with
      | false =>
        refine ⟨⟨?_, ?_⟩, ?_, ?_⟩ <;>
          simp [TranscriptionBridge.send_audio, TranscriptionBridge.start, hne]
      | true =>
        refine ⟨⟨?_, ?_⟩, ?_, ?_⟩ <;>
          simp [TranscriptionBridge.send_audio, TranscriptionBridge.start, hne]
  · intro hconn hhas hfail
    simp only at hconn hhas
    subst hconn
    subst hhas
    subst hfail
    refine ⟨?_, ?_, ?_⟩ <;> simp [TranscriptionBridge.send_audio]

/-- C8 witness: a disconnected bridge with last language `fr` reconnects
once; a connected bridge whose send fails is only marked disconnected. -/
theorem C8_bridge_reconnect_once_witness :
    ((⟨false, false, some "fr"⟩ : TranscriptionBridge).send_audio 9 false
        true).2.reconnect_attempts = 1 ∧
    ((⟨true, true, some "fr"⟩ : TranscriptionBridge).send_audio 9 true false).1
        = ⟨false, true, some "fr"⟩ := by
  constructor
  · exact ((C8_bridge_reconnect_once ⟨false, false, some "fr"⟩ "fr" 9 10 false true).1
      rfl rfl (by decide)).1.1
  · exact ((C8_bridge_reconnect_once ⟨true, true, some "fr"⟩ "fr" 9 10 true false).2
      rfl rfl rfl).1

/-- C9: `close_room` returns `false` and changes nothing when no room
with that id exists; otherwise it returns `true`, flips the room's
active flag to inactive, and removes the room from the registry's room
and host lookup tables, after which every further join attempt for that
room is rejected and every further broadcast to that room is suppressed
(no delivery attempted, registry unchanged).  The `Nodup` hypotheses
state that the association lists model Python dicts (unique keys). -/
theorem C9_close_room_rejects_after_close (m : RoomManager)
    (room_id language : String) (ws : WS) (voice : String)
    (sendOk : WS → Bool) (text : String) (audio : List Nat)
    (hndr : (dictKeys m.rooms).Nodup) (hndh : (dictKeys m.host_to_room).Nodup) :
    (m.get_room room_id = none → m.close_room room_id = (false, m, none)) ∧
    (∀ room, m.get_room room_id = some room →
      (m.close_room room_id).1 = true ∧
      (m.close_room room_id).2.2 = some { room with is_active := false } ∧
      (m.close_room room_id).2.1.get_room room_id = none ∧
      dictGet (m.close_room room_id).2.1.host_to_room room.host_id = none ∧
      (m.close_room room_id).2.1.add_listener room_id language ws voice
        = (false, (m.close_room room_id).2.1) ∧
      (m.close_room room_id).2.1.broadcast_translation_to_channel sendOk room_id
          language text = (∅, (m.close_room room_id).2.1) ∧
      (m.close_room room_id).2.1.broadcast_audio_to_channel sendOk room_id
          language audio = (∅, (m.close_room room_id).2.1)) := by
  constructor
  · intro h
    rw [RoomManager.get_room] at h
    simp [RoomManager.close_room, h]
  · intro room h
    rw [RoomManager.get_room] at h
    have hclosed : m.close_room room_id
        = (true,
           ⟨dictErase m.rooms (pyUpper room_id),
            dictErase m.host_to_room room.host_id⟩,
           some { room with is_active := false }) := by
      simp [RoomManager.close_room, h]
    have hg : dictGet (dictErase m.rooms (pyUpper room_id)) (pyUpper room_id) = none :=
      dictGet_dictErase_self m.rooms (pyUpper room_id) hndr
    have hh : dictGet (dictErase m.host_to_room room.host_id) room.host_id = none :=
      dictGet_dictErase_self m.host_to_room room.host_id hndh
    rw [hclosed]
    refine ⟨rfl, rfl, ?_, ?_, ?_, ?_, ?_⟩
    · simpa [RoomManager.get_room] using hg
    · simpa using hh
    · simp [RoomManager.add_listener, hg]
    · simp [RoomManager.broadcast_translation_to_channel, hg]
    · simp [RoomManager.broadcast_audio_to_channel, hg]

/-- C9 witness: closing an absent room returns `false` unchanged;
closing an existing room (looked up case-insensitively) returns `true`
and a following join is rejected. -/
theorem C9_close_room_rejects_after_close_witness :
    ((⟨[], []⟩ : RoomManager).close_room "X" = (false, ⟨[], []⟩, none)) ∧
    (RoomManager.close_room
        ⟨[("R1", ⟨"R1", "Event", "h1", "auto", [], 0, true, 1000⟩)],
         [("h1", "R1")]⟩ "r1").1 = true ∧
    (RoomManager.close_room
        ⟨[("R1", ⟨"R1", "Event", "h1", "auto", [], 0, true, 1000⟩)],
         [("h1", "R1")]⟩ "r1").2.1.add_listener "r1" "es" 1 "alloy"
      = (false,
         (RoomManager.close_room
           ⟨[("R1", ⟨"R1", "Event", "h1", "auto", [], 0, true, 1000⟩)],
            [("h1", "R1")]⟩ "r1").2.1) := by
  refine ⟨(C9_close_room_rejects_after_close ⟨[], []⟩ "X" "es" 1 "alloy"
      (fun _ => true) "t" [] (by decide) (by decide)).1 (by decide), ?_, ?_⟩
  · exact ((C9_close_room_rejects_after_close
      ⟨[("R1", ⟨"R1", "Event", "h1", "auto", [], 0, true, 1000⟩)], [("h1", "R1")]⟩
      "r1" "es" 1 "alloy" (fun _ => true) "t" [] (by decide) (by decide)).2
      ⟨"R1", "Event", "h1", "auto", [], 0, true, 1000⟩ (by decide)).1
  · exact ((C9_close_room_rejects_after_close
      ⟨[("R1", ⟨"R1", "Event", "h1", "auto", [], 0, true, 1000⟩)], [("h1", "R1")]⟩
      "r1" "es" 1 "alloy" (fun _ => true) "t" [] (by decide) (by decide)).2
      ⟨"R1", "Event", "h1", "auto", [], 0, true, 1000⟩ (by decide)).2.2.2.2.1

/-- C10: once a channel exists for a language, `get_or_create_channel`
with a different voice argument returns the existing channel and leaves
the room (hence the channel's voice and every other channel field)
unchanged; through `add_listener` the existing channel's voice, target
language and active flag are likewise unchanged by the voice argument;
the voice argument takes effect only when the channel is created. -/
theorem C10_voice_only_at_creation (room : TranslationRoom)
    (language voice2 : String) (ch : TranslationChannel)
    (m : RoomManager) (room_id : String) (ws : WS) :
    (dictGet room.channels language = some ch →
      room.get_or_create_channel language voice2 = (ch, room)) ∧
    (dictGet room.channels language = none →
      (room.get_or_create_channel language voice2).1.voice = voice2 ∧
      (room.get_or_create_channel language voice2).1.target_language = language) ∧
    (dictGet m.rooms (pyUpper room_id) = some room →
      dictGet room.channels language = some ch →
      ∀ room2 ch2,
        dictGet (m.add_listener room_id language ws voice2).2.rooms (pyUpper room_id)
          = some room2 →
        dictGet room2.channels language = some ch2 →
        ch2.voice = ch.voice ∧ ch2.target_language = ch.target_language ∧
        ch2.is_active = ch.is_active) := by
  refine ⟨?_, ?_, ?_⟩
  · intro h
    exact get_or_create_channel_existing room language voice2 ch h
  · intro h
    rw [get_or_create_channel_new room language voice2 h]
    exact ⟨rfl, rfl⟩
  · intro hm hch room2 ch2 h2 h3
    simp only [RoomManager.add_listener, hm] at h2
    rw [get_or_create_channel_existing room language voice2 ch hch] at h2
    dsimp only at h2
    by_cases hact : room.is_active = false
    · rw [if_pos hact] at h2
      dsimp only at h2
      rw [hm] at h2
      obtain rfl : room = room2 := by injection h2
      rw [hch] at h3
      obtain rfl : ch = ch2 := by injection h3
      exact ⟨rfl, rfl, rfl⟩
    · rw [if_neg hact] at h2
      by_cases hfull : room.max_listeners_per_channel ≤ ch.listeners.card
      · rw [if_pos hfull] at h2
        dsimp only at h2
        rw [dictGet_dictInsert_self] at h2
        obtain rfl : room = room2 := by injection h2
        rw [hch] at h3
        obtain rfl : ch = ch2 := by injection h3
        exact ⟨rfl, rfl, rfl⟩
      · rw [if_neg hfull] at h2
        dsimp only at h2
        rw [dictGet_dictInsert_self] at h2
        have hroom2 := Option.some.inj h2
        subst hroom2
        dsimp only at h3
        rw [dictGet_dictInsert_self] at h3
        have hch2 := Option.some.inj h3
        subst hch2
        exact ⟨rfl, rfl, rfl⟩

/-- C10 witness: re-creating the `es` channel with a different voice
returns the existing channel (voice `alloy`) and the unchanged room. -/
theorem C10_voice_only_at_creation_witness :
    TranslationRoom.get_or_create_channel
      ⟨"R1", "Event", "h1", "auto", [("es", ⟨"es", "alloy", ∅, true⟩)], 0, true, 1000⟩
      "es" "nova"
      = (⟨"es", "alloy", ∅, true⟩,
         ⟨"R1", "Event", "h1", "auto", [("es", ⟨"es", "alloy", ∅, true⟩)], 0, true,
          1000⟩) :=
  (C10_voice_only_at_creation
    ⟨"R1", "Event", "h1", "auto", [("es", ⟨"es", "alloy", ∅, true⟩)], 0, true, 1000⟩
    "es" "nova" ⟨"es", "alloy", ∅, true⟩ ⟨[], []⟩ "R1" 0).1 (by decide)
